import Mathlib

/-!
Shallow embedding of the chip8 interpreter (src/bits.rs, src/decode.rs,
src/chip8.rs) and verification of its specification claims.

Machine integers are modelled as Nat with explicit wrapping (% 256 for u8,
% 65536 for u16).  Code that can panic (failed assertions, out-of-bounds
array indexing, u16 add overflow in debug builds) is modelled in the Option
monad, with none standing for a panic.
-/

namespace Chip8Spec

/-! ## bits.rs -/

/-- Rust: n_set_bits(num_bits) = (1 << num_bits) - 1 with assert!(num_bits < 16);
a failed assertion is a panic, modelled as none. -/
def n_set_bits (num_bits : Nat) : Option Nat :=
  if num_bits < 16 then some ((1 <<< num_bits) - 1) else none

/-- Rust: get_nibbles(instruction, index, num_nibbles).  The asserts
(num_nibbles in [1,4], right_index <= 3) are modelled as guards; the mask is
computed by n_set_bits, which itself can panic. -/
def get_nibbles (instruction index num_nibbles : Nat) : Option Nat :=
  if 1 ≤ num_nibbles then
    if num_nibbles ≤ 4 then
      let right_index := index + num_nibbles - 1
      if right_index ≤ 3 then
        match n_set_bits (num_nibbles * 4) with
        | some mask => some ((instruction >>> ((3 - right_index) * 4)) &&& mask)
        | none => none
      else none
    else none
  else none

/-- Rust: get_nibble(instruction, index) = get_nibbles(instruction, index, 1) as u8,
with assert!(index <= 3).  The u8 cast is % 256. -/
def get_nibble (instruction index : Nat) : Option Nat :=
  if index ≤ 3 then
    match get_nibbles instruction index 1 with
    | some v => some (v % 256)
    | none => none
  else none

/-! ## The instruction enum (chip8.rs) -/

/-- Mirrors enum Instruction in chip8.rs; all fields are Nat
(U4, u8 and U12 fields in the source). -/
inductive Instruction where
  | ClearScreen
  | Return
  | Jump (dest : Nat)
  | CallSubroutine (dest : Nat)
  | SkipEQ (register value : Nat)
  | SkipNEQ (register value : Nat)
  | SkipEQR (register1 register2 : Nat)
  | SkipNEQR (register1 register2 : Nat)
  | SetRegister (register value : Nat)
  | AddToRegister (register value : Nat)
  | SetIndexRegister (value : Nat)
  | MovRegister (register1 register2 : Nat)
  | BinaryOr (register1 register2 : Nat)
  | BinaryAnd (register1 register2 : Nat)
  | BinaryXor (register1 register2 : Nat)
  | Add (register1 register2 : Nat)
  | SubtractForward (register1 register2 : Nat)
  | SubtractBackward (register1 register2 : Nat)
  | ShiftRight (register1 register2 : Nat)
  | ShiftLeft (register1 register2 : Nat)
  | Random (register value : Nat)
  | Draw (x_r y_r height : Nat)
  | SkipPressed (key : Nat)
  | SkipNotPressed (key : Nat)
  | GetDelayTimer (register : Nat)
  | GetKey (register : Nat)
  | FontChar (register : Nat)
  | SetDelayTimer (register : Nat)
  | SetSoundTimer (register : Nat)
  | AddToIndex (register : Nat)
  | RegToDecimal (register : Nat)
  | StoreMemory (register : Nat)
  | LoadMemory (register : Nat)
  deriving DecidableEq, Repr

/-! ## decode.rs

decode returns Option (Option Instruction): the outer layer is panic-freedom
(the final `panic!("Impossible instruction")` arm and any panic inside the
nibble extractors), the inner layer is the source's Option (None = the
unrecognized marker). -/

def decode (instruction : Nat) : Option (Option Instruction) := do
  let top ← get_nibble instruction 0
  match top with
  | 0x0 => do
    let low ← get_nibbles instruction 1 3
    match low with
    | 0x0e0 => pure (some Instruction.ClearScreen)
    | 0x0ee => pure (some Instruction.Return)
    | _ => pure none
  | 0x1 => do
    let dest ← get_nibbles instruction 1 3
    pure (some (Instruction.Jump dest))
  | 0x2 => do
    let dest ← get_nibbles instruction 1 3
    pure (some (Instruction.CallSubroutine dest))
  | 0x3 => do
    let register ← get_nibble instruction 1
    let value ← get_nibbles instruction 2 2
    pure (some (Instruction.SkipEQ register (value % 256)))
  | 0x4 => do
    let register ← get_nibble instruction 1
    let value ← get_nibbles instruction 2 2
    pure (some (Instruction.SkipNEQ register (value % 256)))
  | 0x5 => do
    let register1 ← get_nibble instruction 1
    let register2 ← get_nibble instruction 2
    pure (some (Instruction.SkipEQR register1 register2))
  | 0x6 => do
    let register ← get_nibble instruction 1
    let value ← get_nibbles instruction 2 2
    pure (some (Instruction.SetRegister register (value % 256)))
  | 0x7 => do
    let register ← get_nibble instruction 1
    let value ← get_nibbles instruction 2 2
    pure (some (Instruction.AddToRegister register (value % 256)))
  | 0x8 => do
    let low ← get_nibble instruction 3
    match low with
    | 0 => do
      let register1 ← get_nibble instruction 1
      let register2 ← get_nibble instruction 2
      pure (some (Instruction.MovRegister register1 register2))
    | _ => pure none
  | 0x9 => do
    let register1 ← get_nibble instruction 1
    let register2 ← get_nibble instruction 2
    pure (some (Instruction.SkipNEQR register1 register2))
  | 0xa => do
    let value ← get_nibbles instruction 1 3
    pure (some (Instruction.SetIndexRegister value))
  | 0xb => pure none
  | 0xc => do
    let register ← get_nibble instruction 1
    let value ← get_nibbles instruction 2 2
    pure (some (Instruction.Random register (value % 256)))
  | 0xd => do
    let x_r ← get_nibble instruction 1
    let y_r ← get_nibble instruction 2
    let height ← get_nibble instruction 3
    pure (some (Instruction.Draw x_r y_r height))
  | 0xe => do
    let low ← get_nibbles instruction 2 2
    match low with
    | 0x9e => do
      let key ← get_nibble instruction 1
      pure (some (Instruction.SkipPressed key))
    | 0xa1 => do
      let key ← get_nibble instruction 1
      pure (some (Instruction.SkipNotPressed key))
    | _ => pure none
  | 0xf => do
    let nib ← get_nibble instruction 1
    let low ← get_nibbles instruction 2 2
    match low with
    | 0x07 => pure (some (Instruction.GetDelayTimer nib))
    | 0x15 => pure (some (Instruction.SetDelayTimer nib))
    | 0x1e => pure (some (Instruction.AddToIndex nib))
    | _ => pure none
  | _ => none

/-! ## Machine state (chip8.rs) -/

/-- Mirrors enum Cycle in chip8.rs. -/
inductive Cycle where
  | RedrawRequested
  | Complete
  deriving DecidableEq, Repr

/-- Mirrors struct Chip8.  The register file ([Wrapping<u8>; 16]), memory
([u8; 4096]) and display ([[bool; 64]; 32]) are modelled as total functions;
out-of-bounds memory accesses are modelled as explicit panics (none) at each
access site.  Instant is modelled as a nanosecond count; StdRng as an
abstract deterministic stream rng with a position counter. -/
structure Chip8 where
  registers : Nat → Nat
  memory : Nat → Nat
  pc : Nat
  index_register : Nat
  delay_timer : Nat
  sound_timer : Nat
  display : Nat → Nat → Bool
  stack : List Nat
  last_clock : Nat
  rng : Nat → Nat
  rng_pos : Nat

/-- Pointwise update of a function-modelled array. -/
def updFn (f : Nat → Nat) (i v : Nat) : Nat → Nat :=
  fun j => if j = i then v else f j

/-- Wrapping u8 subtraction: a - b on Wrapping<u8>. -/
def sub8 (a b : Nat) : Nat := (a + 256 - b % 256) % 256

/-- display[py][px] ^= true. -/
def togglePix (d : Nat → Nat → Bool) (py px : Nat) : Nat → Nat → Bool :=
  fun r c => if r = py ∧ c = px then ! d r c else d r c

/-- Inner loop of the Draw arm: processes bit positions 0..n of one sprite
row whose target row on screen is y; (1 << bit_pos) & sprite_row selects the
bit, pix_x = x + 7 - bit_pos, and in-bounds pixels are XOR-toggled. -/
def drawBits (sprite_row x y : Nat) (d : Nat → Nat → Bool) : Nat → (Nat → Nat → Bool)
  | 0 => d
  | b + 1 =>
    let d' := drawBits sprite_row x y d b
    if (1 <<< b) &&& sprite_row ≠ 0 then
      if x + 7 - b < 64 ∧ y < 32 then togglePix d' y (x + 7 - b)
      else d'
    else d'

/-- Outer loop of the Draw arm: processes sprite rows 0..n.  The u16 add
index_register + row_index panics on overflow (debug build), and the memory
read panics when the location is at least 4096; both are none. -/
def drawRows (mem : Nat → Nat) (I x y : Nat) (d : Nat → Nat → Bool) : Nat → Option (Nat → Nat → Bool)
  | 0 => some d
  | n + 1 =>
    (drawRows mem I x y d n).bind (fun d' =>
      if I + n < 65536 then
        if I + n < 4096 then
          some (drawBits (mem (I + n)) x (y + n) d' 8)
        else none
      else none)

/-- Loop of the RegToDecimal arm, over the descending index list [2, 1, 0]:
memory[index + i] = val % 10, then val /= 10.  An out-of-bounds write is a
panic (none). -/
def regToDecimalLoop (I : Nat) (mem : Nat → Nat) (val : Nat) : List Nat → Option (Nat → Nat)
  | [] => some mem
  | i :: rest =>
    if I + i < 4096 then
      regToDecimalLoop I (updFn mem (I + i) (val % 10)) (val / 10) rest
    else none

/-- Loop of the StoreMemory arm: for i in 0..n, memory[index + i] =
registers[i].  Called with n = register + 1 to model 0..=register. -/
def storeMemoryLoop (regs : Nat → Nat) (I : Nat) (mem : Nat → Nat) : Nat → Option (Nat → Nat)
  | 0 => some mem
  | n + 1 =>
    (storeMemoryLoop regs I mem n).bind (fun m =>
      if I + n < 4096 then some (updFn m (I + n) (regs n)) else none)

/-- Loop of the LoadMemory arm: for i in 0..n, registers[i] =
memory[index + i].  Called with n = register + 1 to model 0..=register. -/
def loadMemoryLoop (mem : Nat → Nat) (I : Nat) (regs : Nat → Nat) : Nat → Option (Nat → Nat)
  | 0 => some regs
  | n + 1 =>
    (loadMemoryLoop mem I regs n).bind (fun r =>
      if I + n < 4096 then some (updFn r n (mem (I + n))) else none)

/-- Mirrors Chip8::execute.  Returns none where the Rust code panics
(Return on an empty stack, out-of-bounds memory accesses). -/
def execute (s : Chip8) (instruction : Instruction) (key_pressed : Option Nat) :
    Option (Chip8 × Cycle) :=
  match instruction with
  | .ClearScreen =>
    some ({ s with display := fun _ _ => false }, .RedrawRequested)
  | .Return =>
    match s.stack with
    | [] => none
    | p :: rest => some ({ s with pc := p, stack := rest }, .Complete)
  | .Jump dest =>
    some ({ s with pc := dest }, .Complete)
  | .CallSubroutine dest =>
    some ({ s with stack := s.pc :: s.stack, pc := dest }, .Complete)
  | .SkipEQ register value =>
    some (if s.registers register = value then { s with pc := s.pc + 2 } else s, .Complete)
  | .SkipNEQ register value =>
    some (if s.registers register ≠ value then { s with pc := s.pc + 2 } else s, .Complete)
  | .SkipEQR register1 register2 =>
    some (if s.registers register1 = s.registers register2 then
      { s with pc := s.pc + 2 } else s, .Complete)
  | .SkipNEQR register1 register2 =>
    some (if s.registers register1 ≠ s.registers register2 then
      { s with pc := s.pc + 2 } else s, .Complete)
  | .SetRegister register value =>
    some ({ s with registers := updFn s.registers register value }, .Complete)
  | .AddToRegister register value =>
    some ({ s with registers :=
                updFn s.registers register ((s.registers register + value) % 256) }, .Complete)
  | .MovRegister register1 register2 =>
    some ({ s with registers :=
                updFn s.registers register1 (s.registers register2) }, .Complete)
  | .BinaryOr register1 register2 =>
    some ({ s with registers :=
                updFn s.registers register1 (s.registers register1 ||| s.registers register2) }, .Complete)
  | .BinaryAnd register1 register2 =>
    some ({ s with registers :=
                updFn s.registers register1 (s.registers register1 &&& s.registers register2) }, .Complete)
  | .BinaryXor register1 register2 =>
    some ({ s with registers :=
                updFn s.registers register1 (s.registers register1 ^^^ s.registers register2) }, .Complete)
  | .Add register1 register2 =>
    let saved_val := s.registers register1
    let r1 := updFn s.registers register1
      ((s.registers register1 + s.registers register2) % 256)
    let flag := if r1 register1 < saved_val ∨ r1 register1 < r1 register1 then 1 else 0
    some ({ s with registers := updFn r1 0xf flag }, .Complete)
  | .SubtractForward register1 register2 =>
    let r1 := updFn s.registers register1
      (sub8 (s.registers register1) (s.registers register2))
    let flag := if r1 register1 < r1 register2 then 0 else 1
    some ({ s with registers := updFn r1 0xf flag }, .Complete)
  | .SubtractBackward register1 register2 =>
    let r1 := updFn s.registers register1
      (sub8 (s.registers register2) (s.registers register1))
    let flag := if r1 register1 > r1 register2 then 0 else 1
    some ({ s with registers := updFn r1 0xf flag }, .Complete)
  | .ShiftRight register1 _ =>
    some ({ s with registers :=
                updFn s.registers register1 (s.registers register1 / 2) }, .Complete)
  | .ShiftLeft register1 _ =>
    some ({ s with registers :=
                updFn s.registers register1 ((s.registers register1 * 2) % 256) }, .Complete)
  | .SetIndexRegister value =>
    some ({ s with index_register := value }, .Complete)
  | .Random register value =>
    let num := s.rng s.rng_pos % 256
    some ({ s with registers := updFn s.registers register (num &&& value),
                   rng_pos := s.rng_pos + 1 }, .Complete)
  | .Draw x_r y_r height =>
    let x := s.registers x_r % 64
    let y := s.registers y_r % 32
    (drawRows s.memory s.index_register x y s.display height).map
      (fun d' => ({ s with display := d' }, .RedrawRequested))
  | .SkipPressed key =>
    match key_pressed with
    | some k =>
      some (if s.registers key = k then { s with pc := s.pc + 2 } else s, .Complete)
    | none => some (s, .Complete)
  | .SkipNotPressed key =>
    match key_pressed with
    | some k =>
      some (if s.registers key ≠ k then { s with pc := s.pc + 2 } else s, .Complete)
    | none => some ({ s with pc := s.pc + 2 }, .Complete)
  | .GetDelayTimer register =>
    some ({ s with registers := updFn s.registers register s.delay_timer }, .Complete)
  | .GetKey register =>
    match key_pressed with
    | some key =>
      some ({ s with registers := updFn s.registers register key }, .Complete)
    | none => some ({ s with pc := s.pc - 2 }, .Complete)
  | .FontChar register =>
    some ({ s with index_register := (s.registers register &&& 0xf) * 5 }, .Complete)
  | .SetDelayTimer register =>
    some ({ s with delay_timer := s.registers register }, .Complete)
  | .SetSoundTimer register =>
    some ({ s with sound_timer := s.registers register }, .Complete)
  | .AddToIndex register =>
    let saved_val := s.index_register
    let newIndex := (s.index_register + s.registers register) % 65536
    let flag := if newIndex < saved_val then 1 else 0
    some ({ s with index_register := newIndex,
                   registers := updFn s.registers 0xf flag }, .Complete)
  | .RegToDecimal register =>
    (regToDecimalLoop s.index_register s.memory (s.registers register) [2, 1, 0]).map
      (fun m => ({ s with memory := m }, .Complete))
  | .StoreMemory register =>
    (storeMemoryLoop s.registers s.index_register s.memory (register + 1)).map
      (fun m => ({ s with memory := m }, .Complete))
  | .LoadMemory register =>
    (loadMemoryLoop s.memory s.index_register s.registers (register + 1)).map
      (fun r => ({ s with registers := r }, .Complete))

/-! ## Clock integration (Chip8::cycle) -/

/-- Duration::from_secs_f32(1.0) / 60: 1.0f32 is exactly one second and
Duration division truncates to whole nanoseconds. -/
def time_60hz : Nat := 1000000000 / 60

/-- The timer-update block at the top of Chip8::cycle: when the time elapsed
since last_clock reaches the 1/60 s period, both timers decrement (saturating
at zero) and the baseline resets to now.  duration_since saturates at zero,
which Nat subtraction models. -/
def clockTick (s : Chip8) (now : Nat) : Chip8 :=
  if time_60hz ≤ now - s.last_clock then
    { s with
      delay_timer := if 0 < s.delay_timer then s.delay_timer - 1 else s.delay_timer,
      sound_timer := if 0 < s.sound_timer then s.sound_timer - 1 else s.sound_timer,
      last_clock := now }
  else s

/-- Chip8::get_instruction: big-endian fetch of two bytes at pc. -/
def get_instruction (s : Chip8) : Nat :=
  s.memory (s.pc + 1) ||| (s.memory s.pc <<< 8)

/-- Chip8::pc_inbounds. -/
def pc_inbounds (s : Chip8) : Bool :=
  decide (0x200 ≤ s.pc ∧ s.pc < 4095)

/-- Chip8::cycle: pc check (panic when out of bounds), conditional timer
update, fetch, pc advance, decode (panic on an unrecognized word or on the
unreachable decoder arm), execute. -/
def cycle (s : Chip8) (key_pressed : Option Nat) (now : Nat) : Option (Chip8 × Cycle) :=
  if pc_inbounds s then
    let s1 := clockTick s now
    let raw_instruction := get_instruction s1
    let s2 := { s1 with pc := s1.pc + 2 }
    match decode raw_instruction with
    | some (some instruction) => execute s2 instruction key_pressed
    | some none => none
    | none => none
  else none

/-! ## Helper lemmas about the nibble extractor and the decoder -/

lemma get_nibble_eq (w i : Nat) (h : i ≤ 3) :
    get_nibble w i = some ((w >>> ((3 - i) * 4)) &&& 15) := by
  have hle : (w >>> ((3 - i) * 4)) &&& 15 ≤ 15 := Nat.and_le_right
  have h1 : i + 1 - 1 = i := by omega
  unfold get_nibble get_nibbles n_set_bits
  simp only [h1, Nat.shiftLeft_eq]
  norm_num [h]
  omega

lemma get_nibble_eq0 (w : Nat) : get_nibble w 0 = some ((w >>> 12) &&& 15) := by
  rw [get_nibble_eq w 0 (by omega)]

lemma get_nibble_eq1 (w : Nat) : get_nibble w 1 = some ((w >>> 8) &&& 15) := by
  rw [get_nibble_eq w 1 (by omega)]

lemma get_nibble_eq2 (w : Nat) : get_nibble w 2 = some ((w >>> 4) &&& 15) := by
  rw [get_nibble_eq w 2 (by omega)]

lemma get_nibble_eq3 (w : Nat) : get_nibble w 3 = some (w &&& 15) := by
  rw [get_nibble_eq w 3 (by omega)]
  norm_num

lemma get_nibbles_13 (w : Nat) : get_nibbles w 1 3 = some (w &&& 4095) := by
  unfold get_nibbles n_set_bits
  norm_num [Nat.shiftLeft_eq]

lemma get_nibbles_22 (w : Nat) : get_nibbles w 2 2 = some (w &&& 255) := by
  unfold get_nibbles n_set_bits
  norm_num [Nat.shiftLeft_eq]

/-! ## Concrete states used to evaluate the code and to witness theorems -/

/-- A blank machine state (all registers, memory, timers zero). -/
def baseState : Chip8 where
  registers := fun _ => 0
  memory := fun _ => 0
  pc := 0x200
  index_register := 0
  delay_timer := 0
  sound_timer := 0
  display := fun _ _ => false
  stack := []
  last_clock := 0
  rng := fun _ => 0
  rng_pos := 0

/-- State with reg0 = 5, reg1 = 4. -/
def subState : Chip8 := { baseState with
  registers := fun j => if j = 0 then 5 else if j = 1 then 4 else 0 }

/-- State with reg0 = 200, reg1 = 100. -/
def addState : Chip8 := { baseState with
  registers := fun j => if j = 0 then 200 else if j = 1 then 100 else 0 }

/-- State with reg15 = 200, reg0 = 100. -/
def addFlagState : Chip8 := { baseState with
  registers := fun j => if j = 15 then 200 else if j = 0 then 100 else 0 }

/-- State at the 16-bit index boundary: index = 0xFFFF, reg0 = 1. -/
def idxState : Chip8 := { baseState with
  index_register := 0xffff
  registers := fun j => if j = 0 then 1 else 0 }

/-! ## Claim theorems -/

/-- Claim C1: the spec's opcode table promises that 0x8xy1 (Or), 0x8xy2 (And),
0x8xy3 (Xor), 0x8xy4 (Add), 0x8xy5 (SubForward), 0x8xy7 (SubBackward),
0x8xy6 (ShiftRight), 0x8xyE (ShiftLeft), 0xFx0A (WaitKey), 0xFx18 (StoreSound),
0xFx29 (FontChar), 0xFx33 (StoreBCD), 0xFx55 (StoreRange) and 0xFx65 (LoadRange)
decode to tagged instructions.  The decoder instead returns the unrecognized
marker (inner none) for every one of them, evaluated here at x = 0, y = 1:
the Instruction enum and the execute arms for these operations exist but are
unreachable from decode, so this is a gap in the code, not in the spec. -/
theorem c1_decoder_missing_opcodes :
    decode 0x8011 = some none ∧ decode 0x8012 = some none ∧
    decode 0x8013 = some none ∧ decode 0x8014 = some none ∧
    decode 0x8015 = some none ∧ decode 0x8017 = some none ∧
    decode 0x8016 = some none ∧ decode 0x801e = some none ∧
    decode 0xf00a = some none ∧ decode 0xf018 = some none ∧
    decode 0xf029 = some none ∧ decode 0xf033 = some none ∧
    decode 0xf055 = some none ∧ decode 0xf065 = some none := by
  decide

/-- Claim C2: get_nibbles is claimed total for every width in [1,4], with
width 4 at index 0 returning the word unchanged.  In the code, width 4 calls
n_set_bits(16), whose assertion num_bits < 16 fails, so get_nibbles panics
(none) on every width-4 request; widths 1..3 work as specified. -/
theorem c2_get_nibbles_width4_panics :
    get_nibbles 0x1234 0 4 = none ∧
    get_nibbles 0x1234 0 3 = some 0x123 ∧
    get_nibbles 0x1234 1 3 = some 0x234 ∧
    get_nibbles 0xffff 0 4 = none := by
  decide

/-- Claim C3: SubForward(x, y) is claimed to set the flag to 0 exactly when
the original reg[x] is less than the original reg[y].  The code compares the
post-subtraction value of reg[x] against reg[y] instead: with reg0 = 5 and
reg1 = 4 the difference 1 is stored in reg0 and, because 1 < 4, the flag is
set to 0 although 5 >= 4 means no borrow occurred and the flag should be 1. -/
theorem c3_subforward_flag_bug :
    (execute subState (.SubtractForward 0 1) none).map
      (fun p => (p.1.registers 0, p.1.registers 15)) = some (1, 0) := by
  decide

/-- Claim C4: the decoder is total; for every 16-bit word it returns either a
recognized instruction (some (some i)) or the explicit unrecognized marker
(some none), and never reaches the panic arm of the top-nibble dispatch or a
failing assertion in the nibble extractors (none). -/
theorem c4_decode_total (w : Nat) (hw : w < 65536) : ∃ r, decode w = some r := by
  clear hw
  have h15 : (w >>> 12) &&& 15 ≤ 15 := Nat.and_le_right
  unfold decode
  rw [get_nibble_eq0 w]
  set v := (w >>> 12) &&& 15 with hv
  clear_value v
  interval_cases v <;>
    simp only [Option.bind_eq_bind, Option.some_bind, get_nibble_eq1, get_nibble_eq2,
      get_nibble_eq3, get_nibbles_13, get_nibbles_22] <;>
    first
      | exact ⟨_, rfl⟩
      | (split <;> exact ⟨_, rfl⟩)

/-- Witness for C4 at the concrete word 0xB123 (an unrecognized word). -/
theorem c4_decode_total_witness : (0xb123 : Nat) < 65536 ∧ ∃ r, decode 0xb123 = some r :=
  ⟨by decide, c4_decode_total 0xb123 (by decide)⟩

/-- Counterexample to claim C5 as stated: with x = 0xF, reg15 = 200 and
reg0 = 100, Add(15, 0) does not leave the wrapped sum 44 in register x = 15;
the overflow flag (1) overwrites it, because register 0xF is both the
destination and the flag register. -/
theorem c5_add_counterexample :
    ¬ ((execute addFlagState (.Add 15 0) none).map (fun p => p.1.registers 15) =
        some ((200 + 100) % 256)) := by
  decide

/-- Claim C5 (amended): Add(x, y) always sets the flag register 0xF to 1
exactly when the 8-bit sum of the original reg[x] and reg[y] exceeds 255 and
to 0 otherwise, and, provided x is not the flag register itself, stores
reg[x] + reg[y] wrapped modulo 256 into register x (when x = 0xF the
subsequent flag write overwrites the sum). -/
theorem c5_add_amended (s : Chip8) (x y : Nat) (hx : x < 16) (hy : y < 16)
    (ha : s.registers x < 256) (hb : s.registers y < 256) :
    ∃ s', execute s (.Add x y) none = some (s', .Complete) ∧
      s'.registers 15 = (if 255 < s.registers x + s.registers y then 1 else 0) ∧
      (x ≠ 15 → s'.registers x = (s.registers x + s.registers y) % 256) := by
  refine ⟨_, rfl, ?_, ?_⟩
  · simp only [updFn, if_pos rfl]
    split_ifs <;> omega
  · intro hx15
    simp [updFn, hx15]

/-- Witness for C5 (amended) at reg0 = 200, reg1 = 100. -/
theorem c5_add_amended_witness :
    ∃ s', execute addState (.Add 0 1) none = some (s', .Complete) ∧
      s'.registers 15 = (if 255 < addState.registers 0 + addState.registers 1 then 1 else 0) ∧
      s'.registers 0 = (addState.registers 0 + addState.registers 1) % 256 := by
  obtain ⟨s', h1, h2, h3⟩ :=
    c5_add_amended addState 0 1 (by decide) (by decide) (by decide) (by decide)
  exact ⟨s', h1, h2, h3 (by decide)⟩

/-- Claim C6: AddToIndex(x) adds reg[x] to the 16-bit index register wrapping
modulo 65536 and sets the flag register 0xF to 1 exactly when the 16-bit
addition overflows 65535, else 0. -/
theorem c6_add_to_index_flag (s : Chip8) (x : Nat) (hx : x < 16)
    (hI : s.index_register < 65536) (hr : s.registers x < 256) :
    ∃ s', execute s (.AddToIndex x) none = some (s', .Complete) ∧
      s'.index_register = (s.index_register + s.registers x) % 65536 ∧
      s'.registers 15 = (if 65535 < s.index_register + s.registers x then 1 else 0) := by
  refine ⟨_, rfl, rfl, ?_⟩
  simp only [updFn, if_pos rfl]
  split_ifs <;> omega

/-- Witness for C6 at the boundary state index = 0xFFFF, reg0 = 1. -/
theorem c6_add_to_index_flag_witness :
    ∃ s', execute idxState (.AddToIndex 0) none = some (s', .Complete) ∧
      s'.index_register = (idxState.index_register + idxState.registers 0) % 65536 ∧
      s'.registers 15 =
        (if 65535 < idxState.index_register + idxState.registers 0 then 1 else 0) :=
  c6_add_to_index_flag idxState 0 (by decide) (by decide) (by decide)

/-! ## Draw lemmas: each loop toggles a mask that does not depend on the
incoming display, so drawing twice restores the display. -/

lemma drawBits_toggle (sprite x y : Nat) (d d' : Nat → Nat → Bool) (n r c : Nat) :
    xor (drawBits sprite x y d n r c) (d r c) = xor (drawBits sprite x y d' n r c) (d' r c) := by
  have hnx : ∀ p q : Bool, xor (!p) q = !(xor p q) := by decide
  induction n with
  | zero => simp [drawBits]
  | succ b ih =>
    simp only [drawBits]
    by_cases h1 : (1 <<< b) &&& sprite ≠ 0
    · by_cases h2 : x + 7 - b < 64 ∧ y < 32
      · rw [if_pos h1, if_pos h1, if_pos h2, if_pos h2]
        unfold togglePix
        by_cases h3 : r = y ∧ c = x + 7 - b
        · rw [if_pos h3, if_pos h3, hnx, hnx, ih]
        · rw [if_neg h3, if_neg h3]
          exact ih
      · rw [if_pos h1, if_pos h1, if_neg h2, if_neg h2]
        exact ih
    · rw [if_neg h1, if_neg h1]
      exact ih

lemma drawRows_toggle (mem : Nat → Nat) (I x y : Nat) :
    ∀ (n : Nat) (d d' e e' : Nat → Nat → Bool),
      drawRows mem I x y d n = some e → drawRows mem I x y d' n = some e' →
      ∀ r c, xor (e r c) (d r c) = xor (e' r c) (d' r c) := by
  have key : ∀ a b c d e f : Bool,
      xor a b = xor d e → xor b c = xor e f → xor a c = xor d f := by decide
  intro n
  induction n with
  | zero =>
    intro d d' e e' he he' r c
    simp only [drawRows] at he he'
    cases he; cases he'
    simp
  | succ m ih =>
    intro d d' e e' he he' r c
    cases hm : drawRows mem I x y d m with
    | none => rw [drawRows, hm, Option.none_bind] at he; cases he
    | some f =>
      cases hm' : drawRows mem I x y d' m with
      | none => rw [drawRows, hm', Option.none_bind] at he'; cases he'
      | some f' =>
        rw [drawRows, hm, Option.some_bind'] at he
        rw [drawRows, hm', Option.some_bind'] at he'
        by_cases hb : I + m < 65536
        · by_cases hb2 : I + m < 4096
          · rw [if_pos hb, if_pos hb2] at he he'
            cases he; cases he'
            exact key _ _ _ _ _ _
              (drawBits_toggle (mem (I + m)) x (y + m) f f' 8 r c)
              (ih d d' f f' hm hm' r c)
          · rw [if_pos hb, if_neg hb2] at he; cases he
        · rw [if_neg hb] at he; cases he

lemma drawRows_some (mem : Nat → Nat) (I x y : Nat) (d : Nat → Nat → Bool) (n : Nat)
    (h : ∀ i, i < n → I + i < 4096) : ∃ e, drawRows mem I x y d n = some e := by
  induction n with
  | zero => exact ⟨d, rfl⟩
  | succ m ih =>
    obtain ⟨e, he⟩ := ih (fun i hi => h i (by omega))
    refine ⟨drawBits (mem (I + m)) x (y + m) e 8, ?_⟩
    rw [drawRows, he, Option.some_bind', if_pos (by have := h m (by omega); omega),
      if_pos (h m (by omega))]

lemma drawRows_oob (mem : Nat → Nat) (I x y : Nat) (d : Nat → Nat → Bool) (n : Nat)
    (h : 4096 ≤ I + n) : drawRows mem I x y d (n + 1) = none := by
  rw [drawRows]
  cases drawRows mem I x y d n with
  | none => rfl
  | some d' =>
    rw [Option.some_bind']
    split_ifs with h1 h2
    · omega
    · rfl
    · rfl

/-- Claim C7: when the sprite rows all lie inside the 4096-byte memory,
executing the same Draw instruction twice in a row restores every display
cell (XOR is self-inverse), and each execution returns the redraw signal. -/
theorem c7_draw_self_inverse (s : Chip8) (x_r y_r h : Nat) (k1 k2 : Option Nat)
    (hh : h < 16) (hb : s.index_register + h ≤ 4096) :
    ∃ s1 s2, execute s (.Draw x_r y_r h) k1 = some (s1, .RedrawRequested) ∧
      execute s1 (.Draw x_r y_r h) k2 = some (s2, .RedrawRequested) ∧
      ∀ r c, s2.display r c = s.display r c := by
  have key : ∀ a b c : Bool, xor b a = xor c b → c = a := by decide
  obtain ⟨d1, hd1⟩ := drawRows_some s.memory s.index_register
    (s.registers x_r % 64) (s.registers y_r % 32) s.display h (fun i hi => by omega)
  obtain ⟨d2, hd2⟩ := drawRows_some s.memory s.index_register
    (s.registers x_r % 64) (s.registers y_r % 32) d1 h (fun i hi => by omega)
  refine ⟨{ s with display := d1 }, { s with display := d2 }, ?_, ?_, ?_⟩
  · show (drawRows s.memory s.index_register
      (s.registers x_r % 64) (s.registers y_r % 32) s.display h).map _ = _
    rw [hd1, Option.map_some']
  · show (drawRows s.memory s.index_register
      (s.registers x_r % 64) (s.registers y_r % 32) d1 h).map _ = _
    rw [hd2, Option.map_some']
  · intro r c
    exact key _ _ _ (drawRows_toggle s.memory s.index_register
      (s.registers x_r % 64) (s.registers y_r % 32) h s.display d1 d1 d2 hd1 hd2 r c)

/-- State holding a one-byte sprite 0x80 at address 0. -/
def drawState : Chip8 := { baseState with memory := fun a => if a = 0 then 0x80 else 0 }

/-- Witness for C7: drawing the 0x80 sprite at the origin twice. -/
theorem c7_draw_self_inverse_witness :
    ∃ s1 s2, execute drawState (.Draw 0 0 1) none = some (s1, .RedrawRequested) ∧
      execute s1 (.Draw 0 0 1) none = some (s2, .RedrawRequested) ∧
      ∀ r c, s2.display r c = drawState.display r c :=
  c7_draw_self_inverse drawState 0 0 1 none none (by decide) (by decide)

/-! ## Store/Load and memory-bounds lemmas -/

lemma storeMemoryLoop_some (regs : Nat → Nat) (I : Nat) (mem : Nat → Nat) (n : Nat)
    (h : ∀ i, i < n → I + i < 4096) :
    ∃ m, storeMemoryLoop regs I mem n = some m ∧
      (∀ i, i < n → m (I + i) = regs i) ∧
      (∀ a, (∀ i, i < n → a ≠ I + i) → m a = mem a) := by
  induction n with
  | zero => exact ⟨mem, rfl, fun i hi => absurd hi (by omega), fun a _ => rfl⟩
  | succ k ih =>
    obtain ⟨m0, hm0, hvals, hrest⟩ := ih (fun i hi => h i (by omega))
    refine ⟨updFn m0 (I + k) (regs k), ?_, ?_, ?_⟩
    · rw [storeMemoryLoop, hm0, Option.some_bind', if_pos (h k (by omega))]
    · intro i hi
      by_cases hik : i = k
      · subst hik
        simp [updFn]
      · unfold updFn
        rw [if_neg (by omega), hvals i (by omega)]
    · intro a ha
      unfold updFn
      rw [if_neg (ha k (by omega)), hrest a (fun i hi => ha i (by omega))]

lemma storeMemoryLoop_oob (regs : Nat → Nat) (I : Nat) (mem : Nat → Nat) (n : Nat)
    (h : 4096 ≤ I + n) : storeMemoryLoop regs I mem (n + 1) = none := by
  rw [storeMemoryLoop]
  cases storeMemoryLoop regs I mem n with
  | none => rfl
  | some m =>
    rw [Option.some_bind', if_neg (by omega)]

lemma loadMemoryLoop_some (mem : Nat → Nat) (I : Nat) (regs : Nat → Nat) (n : Nat)
    (h : ∀ i, i < n → I + i < 4096) :
    ∃ r, loadMemoryLoop mem I regs n = some r ∧
      (∀ i, i < n → r i = mem (I + i)) ∧
      (∀ j, n ≤ j → r j = regs j) := by
  induction n with
  | zero => exact ⟨regs, rfl, fun i hi => absurd hi (by omega), fun j _ => rfl⟩
  | succ k ih =>
    obtain ⟨r0, hr0, hvals, hrest⟩ := ih (fun i hi => h i (by omega))
    refine ⟨updFn r0 k (mem (I + k)), ?_, ?_, ?_⟩
    · rw [loadMemoryLoop, hr0, Option.some_bind', if_pos (h k (by omega))]
    · intro i hi
      by_cases hik : i = k
      · subst hik
        simp [updFn]
      · unfold updFn
        rw [if_neg (by omega), hvals i (by omega)]
    · intro j hj
      unfold updFn
      rw [if_neg (by omega), hrest j (by omega)]

lemma loadMemoryLoop_oob (mem : Nat → Nat) (I : Nat) (regs : Nat → Nat) (n : Nat)
    (h : 4096 ≤ I + n) : loadMemoryLoop mem I regs (n + 1) = none := by
  rw [loadMemoryLoop]
  cases loadMemoryLoop mem I regs n with
  | none => rfl
  | some r =>
    rw [Option.some_bind', if_neg (by omega)]

/-- Claim C8: with the index window in bounds, StoreRange(x) followed by an
arbitrary overwrite of the register file followed by LoadRange(x) restores
registers 0..=x exactly, and neither StoreRange nor LoadRange modifies the
index register. -/
theorem c8_store_load_roundtrip (s : Chip8) (x : Nat) (g : Nat → Nat) (hx : x < 16)
    (hb : s.index_register + x < 4096) :
    ∃ s1 s3, execute s (.StoreMemory x) none = some (s1, .Complete) ∧
      s1.index_register = s.index_register ∧
      execute { s1 with registers := g } (.LoadMemory x) none = some (s3, .Complete) ∧
      s3.index_register = s.index_register ∧
      ∀ j, j ≤ x → s3.registers j = s.registers j := by
  obtain ⟨m, hm, hvals, -⟩ :=
    storeMemoryLoop_some s.registers s.index_register s.memory (x + 1) (fun i hi => by omega)
  obtain ⟨r, hr, hrvals, -⟩ :=
    loadMemoryLoop_some m s.index_register g (x + 1) (fun i hi => by omega)
  refine ⟨{ s with memory := m }, { s with memory := m, registers := r }, ?_, rfl, ?_, rfl, ?_⟩
  · show (storeMemoryLoop s.registers s.index_register s.memory (x + 1)).map _ = _
    rw [hm, Option.map_some']
  · show (loadMemoryLoop m s.index_register g (x + 1)).map _ = _
    rw [hr, Option.map_some']
  · intro j hj
    show r j = s.registers j
    rw [hrvals j (by omega), hvals j (by omega)]

lemma draw_isSome_iff (s : Chip8) (key : Option Nat) (x_r y_r h : Nat) :
    (execute s (.Draw x_r y_r h) key).isSome = true ↔
      (h = 0 ∨ s.index_register + h ≤ 4096) := by
  show ((drawRows s.memory s.index_register (s.registers x_r % 64)
    (s.registers y_r % 32) s.display h).map _).isSome = true ↔ _
  rw [Option.isSome_map']
  cases h with
  | zero => simp [drawRows]
  | succ n =>
    constructor
    · intro hs
      by_cases hc : s.index_register + (n + 1) ≤ 4096
      · right; exact hc
      · rw [drawRows_oob _ _ _ _ _ _ (by omega)] at hs
        simp at hs
    · intro hcase
      have hle : s.index_register + (n + 1) ≤ 4096 := by
        rcases hcase with h0 | h1
        · cases h0
        · exact h1
      obtain ⟨e, he⟩ := drawRows_some s.memory s.index_register (s.registers x_r % 64)
        (s.registers y_r % 32) s.display (n + 1) (fun i hi => by omega)
      rw [he]
      rfl

lemma bcd_isSome_iff (s : Chip8) (key : Option Nat) (r : Nat) :
    (execute s (.RegToDecimal r) key).isSome = true ↔ s.index_register + 2 < 4096 := by
  show ((regToDecimalLoop s.index_register s.memory (s.registers r) [2, 1, 0]).map _).isSome
    = true ↔ _
  rw [Option.isSome_map']
  by_cases hc : s.index_register + 2 < 4096
  · rw [regToDecimalLoop, if_pos hc, regToDecimalLoop, if_pos (by omega),
      regToDecimalLoop, if_pos (by omega), regToDecimalLoop]
    simp [hc]
  · rw [regToDecimalLoop, if_neg hc]
    simp [hc]

lemma store_isSome_iff (s : Chip8) (key : Option Nat) (x : Nat) :
    (execute s (.StoreMemory x) key).isSome = true ↔ s.index_register + x < 4096 := by
  show ((storeMemoryLoop s.registers s.index_register s.memory (x + 1)).map _).isSome = true ↔ _
  rw [Option.isSome_map']
  by_cases hc : s.index_register + x < 4096
  · obtain ⟨m, hm, -, -⟩ :=
      storeMemoryLoop_some s.registers s.index_register s.memory (x + 1) (fun i hi => by omega)
    rw [hm]
    simp [hc]
  · rw [storeMemoryLoop_oob _ _ _ _ (by omega)]
    simp [hc]

lemma load_isSome_iff (s : Chip8) (key : Option Nat) (x : Nat) :
    (execute s (.LoadMemory x) key).isSome = true ↔ s.index_register + x < 4096 := by
  show ((loadMemoryLoop s.memory s.index_register s.registers (x + 1)).map _).isSome = true ↔ _
  rw [Option.isSome_map']
  by_cases hc : s.index_register + x < 4096
  · obtain ⟨r, hr, -, -⟩ :=
      loadMemoryLoop_some s.memory s.index_register s.registers (x + 1) (fun i hi => by omega)
    rw [hr]
    simp [hc]
  · rw [loadMemoryLoop_oob _ _ _ _ (by omega)]
    simp [hc]

/-- Claim C10: addresses computed from the index register are trusted, not
bounds-checked.  For Draw, StoreBCD, StoreRange and LoadRange, execution
completes (isSome) exactly when the index register plus the highest accessed
offset stays below 4096, and panics (none) otherwise. -/
theorem c10_memory_trusted_bounds (s : Chip8) (key : Option Nat) (x_r y_r h r x : Nat)
    (hh : h < 16) (hr : r < 16) (hx : x < 16) :
    ((execute s (.Draw x_r y_r h) key).isSome = true ↔
      (h = 0 ∨ s.index_register + h ≤ 4096)) ∧
    ((execute s (.RegToDecimal r) key).isSome = true ↔ s.index_register + 2 < 4096) ∧
    ((execute s (.StoreMemory x) key).isSome = true ↔ s.index_register + x < 4096) ∧
    ((execute s (.LoadMemory x) key).isSome = true ↔ s.index_register + x < 4096) :=
  ⟨draw_isSome_iff s key x_r y_r h, bcd_isSome_iff s key r,
    store_isSome_iff s key x, load_isSome_iff s key x⟩


/-- State with index = 0x300, reg0 = 7, reg1 = 9. -/
def storeState : Chip8 := { baseState with
  index_register := 0x300
  registers := fun j => if j = 0 then 7 else if j = 1 then 9 else 0 }

/-- Witness for C8 at x = 1 with the register file zeroed in between. -/
theorem c8_store_load_roundtrip_witness :
    ∃ s1 s3, execute storeState (.StoreMemory 1) none = some (s1, .Complete) ∧
      s1.index_register = storeState.index_register ∧
      execute { s1 with registers := fun _ => 0 } (.LoadMemory 1) none = some (s3, .Complete) ∧
      s3.index_register = storeState.index_register ∧
      ∀ j, j ≤ 1 → s3.registers j = storeState.registers j :=
  c8_store_load_roundtrip storeState 1 (fun _ => 0) (by decide) (by decide)

/-- Witness for C10 at the blank state with h = 2, r = 0, x = 3. -/
theorem c10_memory_trusted_bounds_witness :
    ((execute baseState (.Draw 0 0 2) none).isSome = true ↔
      (2 = 0 ∨ baseState.index_register + 2 ≤ 4096)) ∧
    ((execute baseState (.RegToDecimal 0) none).isSome = true ↔
      baseState.index_register + 2 < 4096) ∧
    ((execute baseState (.StoreMemory 3) none).isSome = true ↔
      baseState.index_register + 3 < 4096) ∧
    ((execute baseState (.LoadMemory 3) none).isSome = true ↔
      baseState.index_register + 3 < 4096) :=
  c10_memory_trusted_bounds baseState none 0 0 2 0 3 (by decide) (by decide) (by decide)

/-! ## Clock rate-limiter lemmas -/

lemma clockTick_noop (s : Chip8) (now : Nat) (h : now - s.last_clock < time_60hz) :
    clockTick s now = s := by
  unfold clockTick
  rw [if_neg (by omega)]

lemma clockTick_last_clock (s : Chip8) (now : Nat) (h : time_60hz ≤ now - s.last_clock) :
    (clockTick s now).last_clock = now := by
  unfold clockTick
  rw [if_pos h]

/-- Claim C9: a cycle's timer-update phase (clockTick) leaves the timers and
baseline untouched when less than the 1/60 s period has elapsed since
last_clock; once the period has elapsed both timers decrement by one
(saturating at zero, hence Nat subtraction) and the baseline resets to now;
a timer at zero stays at zero; and after a decrementing update at time now,
any further update within one period of now changes nothing, so timers
decrement at most once per period however many cycles run. -/
theorem c9_timer_rate_limit (s : Chip8) (now now' : Nat) :
    (now - s.last_clock < time_60hz → clockTick s now = s) ∧
    (time_60hz ≤ now - s.last_clock →
      (clockTick s now).delay_timer = s.delay_timer - 1 ∧
      (clockTick s now).sound_timer = s.sound_timer - 1 ∧
      (clockTick s now).last_clock = now) ∧
    (s.delay_timer = 0 → (clockTick s now).delay_timer = 0) ∧
    (s.sound_timer = 0 → (clockTick s now).sound_timer = 0) ∧
    (time_60hz ≤ now - s.last_clock → now' - now < time_60hz →
      clockTick (clockTick s now) now' = clockTick s now) := by
  refine ⟨clockTick_noop s now, ?_, ?_, ?_, ?_⟩
  · intro h
    unfold clockTick
    rw [if_pos h]
    refine ⟨?_, ?_, rfl⟩ <;> (show (if _ then _ else _) = _) <;> split_ifs <;> omega
  · intro h0
    by_cases hc : time_60hz ≤ now - s.last_clock
    · unfold clockTick
      rw [if_pos hc]
      show (if 0 < s.delay_timer then s.delay_timer - 1 else s.delay_timer) = 0
      rw [h0]
      simp
    · rw [clockTick_noop s now (by omega)]
      exact h0
  · intro h0
    by_cases hc : time_60hz ≤ now - s.last_clock
    · unfold clockTick
      rw [if_pos hc]
      show (if 0 < s.sound_timer then s.sound_timer - 1 else s.sound_timer) = 0
      rw [h0]
      simp
    · rw [clockTick_noop s now (by omega)]
      exact h0
  · intro h1 h2
    exact clockTick_noop (clockTick s now) now'
      (by rw [clockTick_last_clock s now h1]; exact h2)


/-- State with delay = 5, sound = 0, baseline 0. -/
def timerState : Chip8 := { baseState with delay_timer := 5 }

/-- Witness for C9 one nanosecond past the period and one more within it. -/
theorem c9_timer_rate_limit_witness :
    (clockTick timerState 16666666).delay_timer = timerState.delay_timer - 1 ∧
    (clockTick timerState 16666666).sound_timer = 0 ∧
    clockTick (clockTick timerState 16666666) 16666667 = clockTick timerState 16666666 := by
  obtain ⟨-, h2, -, h4, h5⟩ := c9_timer_rate_limit timerState 16666666 16666667
  exact ⟨(h2 (by decide)).1, h4 rfl, h5 (by decide) (by decide)⟩

end Chip8Spec


